import Mathlib

/-!
Verification of the roster coordination engine of the Tank Brawl Scheduler
(`cogs/armor_events.py`).

The engine is the in-memory signup state held by `EventSignupView`:
two optional faction commanders, a fixed-length crew-slot array per faction,
and an ordered recruit pool.  Every user action (a Discord button, select or
modal callback) performs one check-then-mutate sequence on that state; the
specification requires those sequences to be serialized per event, so each
complete flow is embedded here as one atomic operation on a `Roster` value.

The `status` guard at the head of every operation models the freeze performed
by `EndEventButton.callback`: it sets `item.disabled = True` on every
component of the signup view, so after the event ends no mutating callback
can be delivered any more; the spec names this rejection `EventEnded`.
-/

namespace TankBrawl

/-- Discord user ids (the engine compares members by identity). -/
abbrev UserId := Nat

/-- The two factions: `"A"` (Allies) and `"B"` (Axis) in the source. -/
inductive Team where
  | A
  | B
deriving DecidableEq, Repr

/-- The two non-commander crew positions. -/
inductive CrewPosition where
  | gunner
  | driver
deriving DecidableEq, Repr

/-- One occupied crew slot: the dict
`{"commander": ..., "crew_name": ..., "gunner": ..., "driver": ...,
  "persistent_crew_id": ...}` built by `CrewNameModal.on_submit` and
`join_with_crew`; `persistent_crew_id` is present only for profile joins. -/
structure CrewSlot where
  commander : UserId
  crew_name : String
  gunner : UserId
  driver : UserId
  persistent_crew_id : Option Nat
deriving DecidableEq, Repr

/-- Lifecycle status of the event (Open while signup runs, Ended after
`EndEventButton.callback` completes). -/
inductive Status where
  | Open
  | Ended
deriving DecidableEq, Repr

/-- The roster state of `EventSignupView`: `commander_a`, `commander_b`,
`crews_a`, `crews_b` (lists of length `MAX_CREWS_PER_TEAM`, `None` = empty
slot), and the ordered `recruits` pool. -/
structure Roster where
  commanderA : Option UserId
  commanderB : Option UserId
  crewsA : List (Option CrewSlot)
  crewsB : List (Option CrewSlot)
  recruits : List UserId
  status : Status
deriving DecidableEq, Repr

/-- The freshly created roster (`EventSignupView.__init__`): no commanders,
`[None] * MAX_CREWS_PER_TEAM` per faction, empty recruit pool, status Open. -/
def init_state (maxCrews : Nat) : Roster :=
  { commanderA := none
    commanderB := none
    crewsA := List.replicate maxCrews none
    crewsB := List.replicate maxCrews none
    recruits := []
    status := .Open }

/-- Does `u` occupy any of the three positions of a (possibly empty) slot?
Mirrors `user in [crew["commander"], crew["gunner"], crew["driver"]]` with the
`isinstance(crew, dict)` guard. -/
def slot_has_user (u : UserId) : Option CrewSlot → Bool
  | none => false
  | some c => decide (u = c.commander) || decide (u = c.gunner) || decide (u = c.driver)

/-- Translation of `EventSignupView.is_user_registered`: `u` is a faction commander, a member
of some crew slot of either faction, or in the recruit pool. -/
def is_user_registered (v : Roster) (u : UserId) : Bool :=
  decide (v.commanderA = some u) || decide (v.commanderB = some u) ||
    v.crewsA.any (slot_has_user u) || v.crewsB.any (slot_has_user u) ||
    decide (u ∈ v.recruits)

/-- Index of the first slot whose commander is `u`
(the scan of `EventSignupView.get_user_crew` over one faction). -/
def find_commanded : List (Option CrewSlot) → UserId → Option Nat
  | [], _ => none
  | none :: rest, u => (find_commanded rest u).map (· + 1)
  | some c :: rest, u =>
      if c.commander = u then some 0 else (find_commanded rest u).map (· + 1)

/-- Translation of `EventSignupView.get_user_crew`: the faction and index of the crew `u`
commands, scanning faction A before faction B. -/
def get_user_crew (v : Roster) (u : UserId) : Option (Team × Nat) :=
  match find_commanded v.crewsA u with
  | some i => some (.A, i)
  | none =>
    match find_commanded v.crewsB u with
    | some i => some (.B, i)
    | none => none

/-- The slot list of one faction (`crews_a` / `crews_b`). -/
def crews (v : Roster) : Team → List (Option CrewSlot)
  | .A => v.crewsA
  | .B => v.crewsB

/-- Replace one faction's slot list. -/
def set_crews (v : Roster) (t : Team) (l : List (Option CrewSlot)) : Roster :=
  match t with
  | .A => { v with crewsA := l }
  | .B => { v with crewsB := l }

/-- The ascending scan `for i in range(MAX_CREWS_PER_TEAM): if slot_list[i] is
None` shared by `CrewNameModal.on_submit` and `join_with_crew`: index of the
lowest empty slot. -/
def first_empty : List (Option CrewSlot) → Option Nat
  | [] => none
  | none :: _ => some 0
  | some _ :: rest => (first_empty rest).map (· + 1)

/-- First-fit allocation: write `c` into the lowest-indexed empty slot,
returning the index and the updated list, or `none` when the team is full. -/
def alloc_slot (l : List (Option CrewSlot)) (c : CrewSlot) :
    Option (Nat × List (Option CrewSlot)) :=
  (first_empty l).map fun i => (i, l.set i (some c))

/-- The typed rejection results of the engine (§7 of the spec; each one is a
distinct ephemeral error message in the source). -/
inductive Res where
  | ok
  | already_registered
  | member_already_registered (u : UserId)
  | team_full
  | not_registered
  | recruit_not_found
  | not_commander
  | event_ended
  | unauthorized
deriving DecidableEq, Repr

/-- Translation of `CommanderSelect.callback`: reject if registered, else take the chosen
faction commander seat. -/
def become_commander (u : UserId) (t : Team) (v : Roster) : Res × Roster :=
  if v.status = .Ended then (.event_ended, v)
  else if is_user_registered v u then (.already_registered, v)
  else
    match t with
    | .A => (.ok, { v with commanderA := some u })
    | .B => (.ok, { v with commanderB := some u })

/-- The direct crew-creation flow (`JoinCrewA/BButton` → `GunnerSelect` →
`DriverSelect` → `CrewNameModal.on_submit`), serialized as one operation:
commander, gunner and driver are each checked with `is_user_registered`, then
the crew dict is written into the first empty slot of the chosen faction. -/
def create_crew (c g d : UserId) (name : String) (t : Team) (v : Roster) :
    Res × Roster :=
  if v.status = .Ended then (.event_ended, v)
  else if is_user_registered v c then (.already_registered, v)
  else if is_user_registered v g then (.already_registered, v)
  else if is_user_registered v d then (.already_registered, v)
  else
    match alloc_slot (crews v t) ⟨c, name, g, d, none⟩ with
    | some (_, l) => (.ok, set_crews v t l)
    | none => (.team_full, v)

/-- A persistent crew profile snapshot as returned by
`crew_cog.db.get_user_crews` (`id`, `crew_name`, `commander_id`, optional
`gunner_id` / `driver_id`, stats omitted: they never reach the roster). -/
structure CrewProfile where
  id : Nat
  crew_name : String
  commander_id : UserId
  gunner_id : Option UserId
  driver_id : Option UserId
deriving DecidableEq, Repr

/-- The three member identities derived from a snapshot in `join_with_crew`:
gunner and driver default to the commander when unset. -/
def profile_members (p : CrewProfile) : UserId × UserId × UserId :=
  (p.commander_id, p.gunner_id.getD p.commander_id, p.driver_id.getD p.commander_id)

/-- The conflict scan of `join_with_crew`: the first derived member (in
commander, gunner, driver order) that is already registered. -/
def first_conflict (v : Roster) (p : CrewProfile) : Option UserId :=
  if is_user_registered v p.commander_id then some p.commander_id
  else if is_user_registered v (p.gunner_id.getD p.commander_id) then
    some (p.gunner_id.getD p.commander_id)
  else if is_user_registered v (p.driver_id.getD p.commander_id) then
    some (p.driver_id.getD p.commander_id)
  else none

/-- Translation of `JoinAllies/AxisWithCrewButton.join_with_crew`: derive the three members,
reject naming the first already-registered one, else write the crew (tagged
with the profile id) into the first empty slot of the chosen faction. -/
def join_with_profile (p : CrewProfile) (t : Team) (v : Roster) : Res × Roster :=
  if v.status = .Ended then (.event_ended, v)
  else
    match first_conflict v p with
    | some m => (.member_already_registered m, v)
    | none =>
      match alloc_slot (crews v t)
          ⟨p.commander_id, p.crew_name, p.gunner_id.getD p.commander_id,
            p.driver_id.getD p.commander_id, some p.id⟩ with
      | some (_, l) => (.ok, set_crews v t l)
      | none => (.team_full, v)

/-- Translation of `RecruitMeButton.callback`: reject if registered, else append to the
recruit pool. -/
def add_recruit (u : UserId) (v : Roster) : Res × Roster :=
  if v.status = .Ended then (.event_ended, v)
  else if is_user_registered v u then (.already_registered, v)
  else (.ok, { v with recruits := v.recruits ++ [u] })

/-- Write one position of a crew dict (`crew['gunner'] = ...` /
`crew['driver'] = ...`). -/
def set_position (c : CrewSlot) (pos : CrewPosition) (u : UserId) : CrewSlot :=
  match pos with
  | .gunner => { c with gunner := u }
  | .driver => { c with driver := u }

/-- Update the occupied slot at index `i` in place; an empty or absent index is
left untouched (the source always reaches an occupied slot here, because the
index comes from `get_user_crew`). -/
def modify_slot (l : List (Option CrewSlot)) (i : Nat) (f : CrewSlot → CrewSlot) :
    List (Option CrewSlot) :=
  match l[i]? with
  | some (some c) => l.set i (some (f c))
  | _ => l

/-- The recruit-assignment flow (`RecruitPlayersButton` → `RecruitSelect` →
`AssignGunner/DriverButton`), serialized as one operation: only a crew
commander may recruit; the recruit must still be in the pool; on success the
chosen position of the commander's crew is overwritten with the recruit and
the recruit is removed from the pool. -/
def assign_recruit (cmd r : UserId) (pos : CrewPosition) (v : Roster) :
    Res × Roster :=
  if v.status = .Ended then (.event_ended, v)
  else
    match get_user_crew v cmd with
    | none => (.not_commander, v)
    | some (t, i) =>
      if r ∈ v.recruits then
        (.ok,
          { set_crews v t (modify_slot (crews v t) i (fun c => set_position c pos r)) with
            recruits := v.recruits.erase r })
      else (.recruit_not_found, v)

/-- The crew-edit flow (`EditCrewButton` → `UpdateGunner/DriverSelect`),
serialized as one operation: only a crew commander may edit; a selected user
is rejected when `is_user_registered` holds, else written into the position;
an empty selection resets the position to the crew's commander. -/
def edit_position (cmd : UserId) (pos : CrewPosition) (newId : Option UserId)
    (v : Roster) : Res × Roster :=
  if v.status = .Ended then (.event_ended, v)
  else
    match get_user_crew v cmd with
    | none => (.not_commander, v)
    | some (t, i) =>
      match newId with
      | some u =>
        if is_user_registered v u then (.already_registered, v)
        else (.ok, set_crews v t (modify_slot (crews v t) i (fun c => set_position c pos u)))
      | none =>
        (.ok, set_crews v t (modify_slot (crews v t) i (fun c => set_position c pos c.commander)))

/-- The slot-clearing loop of `LeaveEventButton.callback`: a slot containing
`u` in any position is reset to `None` whole. -/
def clear_user_slots (u : UserId) (l : List (Option CrewSlot)) :
    List (Option CrewSlot) :=
  l.map fun s => if slot_has_user u s then none else s

/-- First phase of `LeaveEventButton.callback`: vacate the commander seat held
by `u` (faction A is checked before faction B by the `if`/`elif`). -/
def leave_commander_step (u : UserId) (v : Roster) : Roster :=
  if v.commanderA = some u then { v with commanderA := none }
  else if v.commanderB = some u then { v with commanderB := none }
  else v

/-- Second phase: reset every crew slot containing `u` to `None`, in both
factions. -/
def leave_crew_step (u : UserId) (v : Roster) : Roster :=
  { v with crewsA := clear_user_slots u v.crewsA,
           crewsB := clear_user_slots u v.crewsB }

/-- Third phase: drop `u` from the recruit pool when present. -/
def leave_pool_step (u : UserId) (v : Roster) : Roster :=
  if u ∈ v.recruits then { v with recruits := v.recruits.erase u } else v

/-- Translation of `LeaveEventButton.callback`: run the three removal phases in order; the
`removed` flag (reported as `not_registered` when false) is true exactly when
`u` held a commander seat, sat in some crew slot, or was in the pool. -/
def leave (u : UserId) (v : Roster) : Res × Roster :=
  if v.status = .Ended then (.event_ended, v)
  else if v.commanderA = some u ∨ v.commanderB = some u ∨
      v.crewsA.any (slot_has_user u) = true ∨ v.crewsB.any (slot_has_user u) = true ∨
      u ∈ v.recruits then
    (.ok, leave_pool_step u (leave_crew_step u (leave_commander_step u v)))
  else
    (.not_registered, leave_pool_step u (leave_crew_step u (leave_commander_step u v)))

/-- Roles attached to finalize participants. -/
inductive PRole where
  | commander
  | gunner
  | driver
  | recruit
deriving DecidableEq, Repr

/-- One entry of the finalize participant list: the tuple
`(user, team, role, crew_name)` built in `EndEventButton.callback`. -/
structure Participant where
  user : UserId
  team : Option Team
  role : PRole
  crew_name : Option String
deriving DecidableEq, Repr

/-- Entries contributed by one occupied crew slot: its commander with the crew
name, then its gunner unless `gunner == commander`, then its driver unless
`driver == commander`. -/
def crew_participants (t : Team) (c : CrewSlot) : List Participant :=
  [⟨c.commander, some t, .commander, some c.crew_name⟩] ++
    (if c.gunner = c.commander then [] else
      [⟨c.gunner, some t, .gunner, some c.crew_name⟩]) ++
    (if c.driver = c.commander then [] else
      [⟨c.driver, some t, .driver, some c.crew_name⟩])

/-- Entries contributed by one faction's slot list, in slot order. -/
def team_participants (t : Team) (l : List (Option CrewSlot)) : List Participant :=
  (l.map fun s =>
    match s with
    | none => []
    | some c => crew_participants t c).flatten

/-- The participant list built by `EndEventButton.callback`: both commanders,
then every occupied crew slot of faction A then B, then every recruit. -/
def participants (v : Roster) : List Participant :=
  (match v.commanderA with
   | some u => [⟨u, some .A, .commander, none⟩]
   | none => []) ++
  (match v.commanderB with
   | some u => [⟨u, some .B, .commander, none⟩]
   | none => []) ++
  team_participants .A v.crewsA ++ team_participants .B v.crewsB ++
  v.recruits.map fun u => ⟨u, none, .recruit, none⟩

/-- Translation of `EndEventButton.callback`: admin-gated; on success the roster is frozen
(status Ended; every signup component disabled).  The persistence, role-sync
and channel-teardown steps act only on external systems and do not touch the
roster fields. -/
def end_event (is_admin : Bool) (v : Roster) : Res × Roster :=
  if v.status = .Ended then (.event_ended, v)
  else if !is_admin then (.unauthorized, v)
  else (.ok, { v with status := .Ended })

/-- The mutating operations of the engine, one per user-action flow. -/
inductive Op where
  | become_commander (u : UserId) (t : Team)
  | create_crew (c g d : UserId) (name : String) (t : Team)
  | join_with_profile (p : CrewProfile) (t : Team)
  | add_recruit (u : UserId)
  | assign_recruit (cmd r : UserId) (pos : CrewPosition)
  | edit_position (cmd : UserId) (pos : CrewPosition) (newId : Option UserId)
  | leave (u : UserId)

/-- Dispatch one operation. -/
def apply_op : Op → Roster → Res × Roster
  | .become_commander u t, v => become_commander u t v
  | .create_crew c g d name t, v => create_crew c g d name t v
  | .join_with_profile p t, v => join_with_profile p t v
  | .add_recruit u, v => add_recruit u v
  | .assign_recruit cmd r pos, v => assign_recruit cmd r pos v
  | .edit_position cmd pos newId, v => edit_position cmd pos newId v
  | .leave u, v => leave u v

/-- Run a sequence of operations, keeping only the state (a rejected operation
leaves the state unchanged by construction). -/
def run_ops (ops : List Op) (v : Roster) : Roster :=
  ops.foldl (fun s op => (apply_op op s).2) v

/-- Number of crew slots of one list that contain `u`. -/
def crew_count (u : UserId) (l : List (Option CrewSlot)) : Nat :=
  l.countP (slot_has_user u)

/-- How many of the registration categories `u` occupies: commander A,
commander B, each crew slot of either faction (a slot counts once however many
of its positions `u` fills), and the recruit pool. -/
def occ_count (v : Roster) (u : UserId) : Nat :=
  (if v.commanderA = some u then 1 else 0) +
    (if v.commanderB = some u then 1 else 0) +
    crew_count u v.crewsA + crew_count u v.crewsB +
    (if u ∈ v.recruits then 1 else 0)

/-- The uniqueness invariant: every identity occupies at most one registration
category, and the recruit pool is duplicate-free. -/
def UniqueRoster (v : Roster) : Prop :=
  (∀ u, occ_count v u ≤ 1) ∧ v.recruits.Nodup

/-- Concrete crew slot used in witness scenarios. -/
def slotX : CrewSlot := ⟨21, "Hammer", 21, 21, none⟩

/-- Second concrete crew slot used in witness scenarios. -/
def slotY : CrewSlot := ⟨22, "Anvil", 23, 24, none⟩

/-- Roster with one recruit (identity 7), used to exhibit a profile-join
conflict. -/
def wv1 : Roster :=
  { commanderA := none, commanderB := none,
    crewsA := [none, none, none], crewsB := [none, none, none],
    recruits := [7], status := .Open }

/-- Profile snapshot whose (defaulted) members all resolve to identity 7. -/
def wp1 : CrewProfile := ⟨10, "Ghost", 7, none, none⟩

/-- Conflict-free profile snapshot with three distinct members. -/
def wp2 : CrewProfile := ⟨11, "Eagle", 1, some 2, some 3⟩

/-- The finalize scenario of the spec: 2 commanders, one crew of three
distinct members, 2 recruits. -/
def demo_crew : CrewSlot := ⟨3, "Alpha", 4, 5, none⟩

/-- Roster realizing the finalize scenario. -/
def demo_roster : Roster :=
  { commanderA := some 1, commanderB := some 2,
    crewsA := [some demo_crew, none, none], crewsB := [none, none, none],
    recruits := [6, 7], status := .Open }

/-- Roster with a self-crewed commander 3 and one recruit 9, used for the
recruit-assignment witness. -/
def wv2 : Roster :=
  { commanderA := none, commanderB := none,
    crewsA := [some ⟨3, "Bravo", 3, 3, none⟩, none], crewsB := [none, none],
    recruits := [9], status := .Open }

/-- Roster with a single self-crewed commander (identity 1). -/
def wv3 : Roster :=
  { commanderA := none, commanderB := none,
    crewsA := [some ⟨1, "Solo", 1, 1, none⟩], crewsB := [],
    recruits := [], status := .Open }

/-- Roster whose faction A slot array is completely occupied. -/
def wv4 : Roster :=
  { commanderA := none, commanderB := none,
    crewsA := [some slotX, some slotY], crewsB := [none, none],
    recruits := [], status := .Open }

/-- Conflict-free profile snapshot aimed at the full faction of `wv4`. -/
def wp4 : CrewProfile := ⟨12, "Pike", 31, some 32, some 33⟩

/-- Roster with a three-member crew, used for the leave-clears-slot witness. -/
def wv5 : Roster :=
  { commanderA := none, commanderB := none,
    crewsA := [none, some ⟨41, "Claw", 42, 43, none⟩], crewsB := [none, none],
    recruits := [], status := .Open }

/-- Membership from an index lookup. -/
theorem mem_of_idx {α : Type} {l : List α} {i : Nat} {a : α} (h : l[i]? = some a) :
    a ∈ l := by
  obtain ⟨hlt, rfl⟩ := List.getElem?_eq_some.mp h
  exact List.getElem_mem hlt

/-- Balanced form of how `List.set` changes a `countP`. -/
theorem countP_set_balance {α : Type} (p : α → Bool) :
    ∀ (l : List α) (i : Nat) (x a : α), l[i]? = some x →
      (l.set i a).countP p + (if p x then 1 else 0) =
        l.countP p + (if p a then 1 else 0) := by
  intro l
  induction l with
  | nil => intro i x a h; simp at h
  | cons hd tl ih =>
    intro i x a h
    match i with
    | 0 =>
      simp only [List.getElem?_cons_zero, Option.some_inj] at h
      subst h
      simp only [List.set_cons_zero, List.countP_cons]
      omega
    | j + 1 =>
      simp only [List.getElem?_cons_succ] at h
      have hrec := ih j x a h
      simp only [List.set_cons_succ, List.countP_cons]
      omega

/-- A `countP` never increases under a pointwise weakening of the predicate. -/
theorem countP_le_of_imp {α : Type} {p q : α → Bool} :
    ∀ l : List α, (∀ a ∈ l, p a = true → q a = true) → l.countP p ≤ l.countP q := by
  intro l
  induction l with
  | nil => intro _; simp
  | cons hd tl ih =>
    intro h
    simp only [List.countP_cons]
    have h1 := ih fun a ha => h a (List.mem_cons_of_mem hd ha)
    by_cases hp : p hd = true
    · have hq := h hd (List.mem_cons_self hd tl) hp
      simp [hp, hq]; omega
    · simp only [Bool.not_eq_true] at hp
      simp [hp]; omega

/-- The function `find_commanded` returns the index of an occupied slot commanded by `u`. -/
theorem find_commanded_spec :
    ∀ (l : List (Option CrewSlot)) (u : UserId) (i : Nat),
      find_commanded l u = some i →
      ∃ c : CrewSlot, l[i]? = some (some c) ∧ c.commander = u := by
  intro l
  induction l with
  | nil => intro u i h; simp [find_commanded] at h
  | cons hd tl ih =>
    intro u i h
    match hd with
    | none =>
      simp only [find_commanded, Option.map_eq_some'] at h
      obtain ⟨j, hj, rfl⟩ := h
      obtain ⟨c, hc, hcu⟩ := ih u j hj
      exact ⟨c, by simpa using hc, hcu⟩
    | some c0 =>
      by_cases h0 : c0.commander = u
      · simp only [find_commanded, h0, if_pos rfl] at h
        cases h
        exact ⟨c0, by simp, h0⟩
      · simp only [find_commanded, if_neg h0, Option.map_eq_some'] at h
        obtain ⟨j, hj, rfl⟩ := h
        obtain ⟨c, hc, hcu⟩ := ih u j hj
        exact ⟨c, by simpa using hc, hcu⟩

/-- The function `get_user_crew` locates an occupied slot whose commander is `u`. -/
theorem get_user_crew_spec {v : Roster} {u : UserId} {t : Team} {i : Nat}
    (h : get_user_crew v u = some (t, i)) :
    ∃ c : CrewSlot, (crews v t)[i]? = some (some c) ∧ c.commander = u := by
  unfold get_user_crew at h
  cases hA : find_commanded v.crewsA u with
  | some j =>
    rw [hA] at h
    simp only [Option.some_inj, Prod.mk.injEq] at h
    obtain ⟨rfl, rfl⟩ := h
    exact find_commanded_spec v.crewsA u j hA
  | none =>
    rw [hA] at h
    cases hB : find_commanded v.crewsB u with
    | some j =>
      rw [hB] at h
      simp only [Option.some_inj, Prod.mk.injEq] at h
      obtain ⟨rfl, rfl⟩ := h
      exact find_commanded_spec v.crewsB u j hB
    | none => rw [hB] at h; cases h

/-- The function `first_empty` finds an empty slot, and no smaller index is empty. -/
theorem first_empty_spec :
    ∀ (l : List (Option CrewSlot)) (i : Nat), first_empty l = some i →
      l[i]? = some none ∧ ∀ j, j < i → l[j]? ≠ some none := by
  intro l
  induction l with
  | nil => intro i h; simp [first_empty] at h
  | cons hd tl ih =>
    intro i h
    match hd with
    | none =>
      simp only [first_empty] at h
      cases h
      exact ⟨by simp, by omega⟩
    | some c =>
      simp only [first_empty, Option.map_eq_some'] at h
      obtain ⟨j, hj, rfl⟩ := h
      obtain ⟨h1, h2⟩ := ih j hj
      refine ⟨by simpa using h1, ?_⟩
      intro k hk
      match k with
      | 0 => simp
      | k + 1 =>
        simp only [List.getElem?_cons_succ]
        exact h2 k (by omega)

/-- An empty slot at index `k` guarantees `first_empty` succeeds at `k` or
below. -/
theorem first_empty_le :
    ∀ (l : List (Option CrewSlot)) (k : Nat), l[k]? = some none →
      ∃ i, first_empty l = some i ∧ i ≤ k := by
  intro l
  induction l with
  | nil => intro k h; simp at h
  | cons hd tl ih =>
    intro k h
    match hd with
    | none => exact ⟨0, rfl, by omega⟩
    | some c =>
      match k with
      | 0 => simp at h
      | k + 1 =>
        simp only [List.getElem?_cons_succ] at h
        obtain ⟨i, hi, hik⟩ := ih k h
        exact ⟨i + 1, by simp [first_empty, hi], by omega⟩

/-- The function `first_empty` fails exactly when every slot is occupied. -/
theorem first_empty_eq_none_iff (l : List (Option CrewSlot)) :
    first_empty l = none ↔ ∀ s ∈ l, s ≠ none := by
  induction l with
  | nil => simp [first_empty]
  | cons hd tl ih =>
    match hd with
    | none => simp [first_empty]
    | some c => simp [first_empty, ih]

/-- An unregistered identity is absent from every roster component scanned by
`is_user_registered`. -/
theorem reg_false_parts {v : Roster} {u : UserId}
    (h : is_user_registered v u = false) :
    v.commanderA ≠ some u ∧ v.commanderB ≠ some u ∧
      crew_count u v.crewsA = 0 ∧ crew_count u v.crewsB = 0 ∧ u ∉ v.recruits := by
  simp only [is_user_registered, Bool.or_eq_false_iff, decide_eq_false_iff_not,
    List.any_eq_false] at h
  obtain ⟨⟨⟨⟨h1, h2⟩, h3⟩, h4⟩, h5⟩ := h
  refine ⟨h1, h2, ?_, ?_, h5⟩
  · rw [crew_count, List.countP_eq_zero]
    exact h3
  · rw [crew_count, List.countP_eq_zero]
    exact h4

/-- An unregistered identity occupies no registration category at all. -/
theorem occ_count_eq_zero {v : Roster} {u : UserId}
    (h : is_user_registered v u = false) : occ_count v u = 0 := by
  obtain ⟨h1, h2, h3, h4, h5⟩ := reg_false_parts h
  simp [occ_count, h1, h2, h3, h4, h5]

/-- Componentwise reading of `occ_count v u = 0`. -/
theorem occ_zero_parts {v : Roster} {u : UserId} (h : occ_count v u = 0) :
    v.commanderA ≠ some u ∧ v.commanderB ≠ some u ∧
      crew_count u v.crewsA = 0 ∧ crew_count u v.crewsB = 0 ∧ u ∉ v.recruits := by
  unfold occ_count at h
  refine ⟨?_, ?_, by omega, by omega, ?_⟩
  · intro hc; rw [if_pos hc] at h; omega
  · intro hc; rw [if_pos hc] at h; omega
  · intro hc; rw [if_pos hc] at h; omega

/-- A pool member of a roster satisfying the uniqueness bound occupies no other
registration category. -/
theorem pool_member_parts {v : Roster} {u : UserId} (hocc : occ_count v u ≤ 1)
    (hm : u ∈ v.recruits) :
    v.commanderA ≠ some u ∧ v.commanderB ≠ some u ∧
      crew_count u v.crewsA = 0 ∧ crew_count u v.crewsB = 0 := by
  unfold occ_count at hocc
  rw [if_pos hm] at hocc
  refine ⟨?_, ?_, by omega, by omega⟩
  · intro hc; rw [if_pos hc] at hocc; omega
  · intro hc; rw [if_pos hc] at hocc; omega

/-- Operation `CommanderSelect.callback` preserves the uniqueness invariant. -/
theorem become_commander_preserves (u : UserId) (t : Team) (v : Roster)
    (h : UniqueRoster v) : UniqueRoster ((become_commander u t v).2) := by
  obtain ⟨hocc, hnd⟩ := h
  unfold become_commander
  by_cases hend : v.status = .Ended
  · simp only [if_pos hend]
    exact ⟨hocc, hnd⟩
  by_cases hreg : is_user_registered v u = true
  · simp only [if_neg hend, hreg, if_pos]
    exact ⟨hocc, hnd⟩
  have hz := occ_count_eq_zero (by simpa using hreg)
  obtain ⟨h1, h2, h3, h4, h5⟩ := occ_zero_parts hz
  cases t <;>
    simp only [if_neg hend, Bool.not_eq_true] at hreg ⊢ <;>
    simp only [hreg, Bool.false_eq_true, if_false] <;>
    refine ⟨?_, hnd⟩ <;>
    intro x <;>
    by_cases hx : x = u
  · subst hx
    unfold crew_count at h3 h4
    simp [occ_count, crew_count, h2, h3, h4, h5]
  · have := hocc x
    unfold occ_count at this ⊢
    simp only []
    have hux : some u ≠ some x := by simpa using fun e => hx e.symm
    rw [if_neg hux]
    omega
  · subst hx
    unfold crew_count at h3 h4
    simp [occ_count, crew_count, h1, h3, h4, h5]
  · have := hocc x
    unfold occ_count at this ⊢
    simp only []
    have hux : some u ≠ some x := by simpa using fun e => hx e.symm
    rw [if_neg hux]
    omega

/-- Operation `RecruitMeButton.callback` preserves the uniqueness invariant. -/
theorem add_recruit_preserves (u : UserId) (v : Roster)
    (h : UniqueRoster v) : UniqueRoster ((add_recruit u v).2) := by
  obtain ⟨hocc, hnd⟩ := h
  unfold add_recruit
  by_cases hend : v.status = .Ended
  · simp only [if_pos hend]
    exact ⟨hocc, hnd⟩
  by_cases hreg : is_user_registered v u = true
  · simp only [if_neg hend, hreg, if_pos]
    exact ⟨hocc, hnd⟩
  have hz := occ_count_eq_zero (by simpa using hreg)
  obtain ⟨h1, h2, h3, h4, h5⟩ := occ_zero_parts hz
  simp only [Bool.not_eq_true] at hreg
  simp only [if_neg hend, hreg, Bool.false_eq_true, if_false]
  constructor
  · intro x
    by_cases hx : x = u
    · subst hx
      simp [occ_count, h1, h2, h3, h4, h5]
    · have := hocc x
      unfold occ_count at this ⊢
      have hmem : (x ∈ v.recruits ++ [u]) ↔ x ∈ v.recruits := by simp [hx]
      simp only [hmem]
      omega
  · simp [List.nodup_append, hnd, h5]

/-- Componentwise form of `occ_count`. -/
theorem occ_count_def (v : Roster) (x : UserId) :
    occ_count v x =
      (if v.commanderA = some x then 1 else 0) +
        (if v.commanderB = some x then 1 else 0) +
        v.crewsA.countP (slot_has_user x) + v.crewsB.countP (slot_has_user x) +
        (if x ∈ v.recruits then 1 else 0) := rfl

/-- Reading a successful `alloc_slot`. -/
theorem alloc_slot_eq {l : List (Option CrewSlot)} {c : CrewSlot} {i : Nat}
    {l' : List (Option CrewSlot)} (h : alloc_slot l c = some (i, l')) :
    first_empty l = some i ∧ l' = l.set i (some c) := by
  unfold alloc_slot at h
  cases hf : first_empty l with
  | none => rw [hf] at h; cases h
  | some j =>
    rw [hf] at h
    simp only [Option.map_some', Option.some_inj, Prod.mk.injEq] at h
    obtain ⟨h1, h2⟩ := h
    subst h1
    subst h2
    exact ⟨rfl, rfl⟩

/-- Occupancy of a slot means being one of its three members. -/
theorem slot_has_user_cases {x : UserId} {c : CrewSlot}
    (h : slot_has_user x (some c) = true) :
    x = c.commander ∨ x = c.gunner ∨ x = c.driver := by
  simpa [slot_has_user, or_assoc] using h

/-- Writing a crew of three unregistered members into an empty slot preserves
the uniqueness invariant. -/
theorem alloc_preserves {v : Roster} {t : Team} {c : CrewSlot}
    (hocc : ∀ u, occ_count v u ≤ 1) (hnd : v.recruits.Nodup)
    (hc : is_user_registered v c.commander = false)
    (hg : is_user_registered v c.gunner = false)
    (hd : is_user_registered v c.driver = false)
    {i : Nat} (hi : (crews v t)[i]? = some none) :
    UniqueRoster (set_crews v t ((crews v t).set i (some c))) := by
  have key : ∀ x : UserId, ((crews v t).set i (some c)).countP (slot_has_user x) =
      (crews v t).countP (slot_has_user x) +
        (if slot_has_user x (some c) then 1 else 0) := by
    intro x
    have hb := countP_set_balance (slot_has_user x) (crews v t) i none (some c) hi
    simpa [slot_has_user] using hb
  have main : ∀ x : UserId, (if v.commanderA = some x then 1 else 0) +
      (if v.commanderB = some x then 1 else 0) +
      v.crewsA.countP (slot_has_user x) + v.crewsB.countP (slot_has_user x) +
      (if slot_has_user x (some c) then 1 else 0) +
      (if x ∈ v.recruits then 1 else 0) ≤ 1 := by
    intro x
    by_cases hx : slot_has_user x (some c) = true
    · have hz : occ_count v x = 0 := by
        rcases slot_has_user_cases hx with hxc | hxc | hxc
        · rw [hxc]; exact occ_count_eq_zero hc
        · rw [hxc]; exact occ_count_eq_zero hg
        · rw [hxc]; exact occ_count_eq_zero hd
      obtain ⟨h1, h2, h3, h4, h5⟩ := occ_zero_parts hz
      unfold crew_count at h3 h4
      simp [hx, h1, h2, h3, h4, h5]
    · have hb := hocc x
      rw [occ_count_def] at hb
      simp only [Bool.not_eq_true] at hx
      simp only [hx, Bool.false_eq_true, if_false]
      omega
  cases t with
  | A =>
    refine ⟨?_, hnd⟩
    intro x
    rw [occ_count_def]
    simp only [set_crews, crews]
    have hk := key x
    simp only [crews] at hk
    rw [hk]
    have hm := main x
    omega
  | B =>
    refine ⟨?_, hnd⟩
    intro x
    rw [occ_count_def]
    simp only [set_crews, crews]
    have hk := key x
    simp only [crews] at hk
    rw [hk]
    have hm := main x
    omega

/-- Operation `CrewNameModal.on_submit` (the direct crew-creation flow) preserves the
uniqueness invariant. -/
theorem create_crew_preserves (c g d : UserId) (name : String) (t : Team)
    (v : Roster) (h : UniqueRoster v) :
    UniqueRoster ((create_crew c g d name t v).2) := by
  obtain ⟨hocc, hnd⟩ := h
  unfold create_crew
  by_cases hend : v.status = .Ended
  · simp only [if_pos hend]
    exact ⟨hocc, hnd⟩
  by_cases hc : is_user_registered v c = true
  · simp only [if_neg hend, hc, if_pos]
    exact ⟨hocc, hnd⟩
  by_cases hg : is_user_registered v g = true
  · simp only [if_neg hend, hc, Bool.not_eq_true, if_neg, hg, if_pos]
    exact ⟨hocc, hnd⟩
  by_cases hd : is_user_registered v d = true
  · simp only [if_neg hend, hc, hg, Bool.not_eq_true, if_neg, hd, if_pos]
    exact ⟨hocc, hnd⟩
  simp only [Bool.not_eq_true] at hc hg hd
  simp only [if_neg hend, hc, hg, hd, Bool.false_eq_true, if_false]
  cases hal : alloc_slot (crews v t) ⟨c, name, g, d, none⟩ with
  | none => exact ⟨hocc, hnd⟩
  | some pr =>
    obtain ⟨i, l⟩ := pr
    obtain ⟨hfe, rfl⟩ := alloc_slot_eq hal
    have hi := (first_empty_spec (crews v t) i hfe).1
    exact alloc_preserves hocc hnd hc hg hd hi

/-- Reading a conflict-free profile scan. -/
theorem first_conflict_none {v : Roster} {p : CrewProfile}
    (h : first_conflict v p = none) :
    is_user_registered v p.commander_id = false ∧
      is_user_registered v (p.gunner_id.getD p.commander_id) = false ∧
      is_user_registered v (p.driver_id.getD p.commander_id) = false := by
  unfold first_conflict at h
  by_cases h1 : is_user_registered v p.commander_id = true
  · rw [if_pos h1] at h; cases h
  by_cases h2 : is_user_registered v (p.gunner_id.getD p.commander_id) = true
  · rw [if_neg h1, if_pos h2] at h; cases h
  by_cases h3 : is_user_registered v (p.driver_id.getD p.commander_id) = true
  · rw [if_neg h1, if_neg h2, if_pos h3] at h; cases h
  simp only [Bool.not_eq_true] at h1 h2 h3
  exact ⟨h1, h2, h3⟩

/-- Operation `join_with_crew` (the profile-linked join flow) preserves the uniqueness
invariant. -/
theorem join_with_profile_preserves (p : CrewProfile) (t : Team) (v : Roster)
    (h : UniqueRoster v) : UniqueRoster ((join_with_profile p t v).2) := by
  obtain ⟨hocc, hnd⟩ := h
  unfold join_with_profile
  by_cases hend : v.status = .Ended
  · simp only [if_pos hend]
    exact ⟨hocc, hnd⟩
  simp only [if_neg hend]
  cases hcf : first_conflict v p with
  | some m => exact ⟨hocc, hnd⟩
  | none =>
    obtain ⟨hc, hg, hd⟩ := first_conflict_none hcf
    cases hal : alloc_slot (crews v t)
        ⟨p.commander_id, p.crew_name, p.gunner_id.getD p.commander_id,
          p.driver_id.getD p.commander_id, some p.id⟩ with
    | none => exact ⟨hocc, hnd⟩
    | some pr =>
      obtain ⟨i, l⟩ := pr
      obtain ⟨hfe, rfl⟩ := alloc_slot_eq hal
      have hi := (first_empty_spec (crews v t) i hfe).1
      exact alloc_preserves hocc hnd hc hg hd hi

/-- A 0/1 indicator is at most one. -/
theorem ite_le_one (P : Prop) [Decidable P] : (if P then (1 : Nat) else 0) ≤ 1 := by
  split <;> omega

/-- Members of a slot after a position write: an old member, or the written
identity. -/
theorem set_position_member_cases {x u : UserId} {c : CrewSlot} {pos : CrewPosition}
    (h : slot_has_user x (some (set_position c pos u)) = true) :
    slot_has_user x (some c) = true ∨ x = u := by
  cases pos with
  | gunner =>
    simp only [set_position, slot_has_user, Bool.or_eq_true, decide_eq_true_eq] at h ⊢
    rcases h with (h1 | h1) | h1
    · exact Or.inl (Or.inl (Or.inl h1))
    · exact Or.inr h1
    · exact Or.inl (Or.inr h1)
  | driver =>
    simp only [set_position, slot_has_user, Bool.or_eq_true, decide_eq_true_eq] at h ⊢
    rcases h with (h1 | h1) | h1
    · exact Or.inl (Or.inl (Or.inl h1))
    · exact Or.inl (Or.inl (Or.inr h1))
    · exact Or.inr h1

/-- A zero slot count excludes `u` from every slot of the list. -/
theorem not_has_of_count_zero {u : UserId} {l : List (Option CrewSlot)}
    (h : l.countP (slot_has_user u) = 0) {s : Option CrewSlot} (hs : s ∈ l) :
    slot_has_user u s = false := by
  rw [List.countP_eq_zero] at h
  simpa using h s hs

/-- Balance equation for overwriting one position of the occupied slot `i`. -/
theorem countP_write_balance {l : List (Option CrewSlot)} {i : Nat} {c : CrewSlot}
    (hci : l[i]? = some (some c)) (pos : CrewPosition) (u x : UserId) :
    (l.set i (some (set_position c pos u))).countP (slot_has_user x) +
        (if slot_has_user x (some c) then 1 else 0) =
      l.countP (slot_has_user x) +
        (if slot_has_user x (some (set_position c pos u)) then 1 else 0) :=
  countP_set_balance (slot_has_user x) l i (some c) (some (set_position c pos u)) hci

/-- Operation `RecruitPlayersButton`/`AssignGunner/DriverButton` (recruit assignment)
preserves the uniqueness invariant. -/
theorem assign_recruit_preserves (cmd r : UserId) (pos : CrewPosition) (v : Roster)
    (h : UniqueRoster v) : UniqueRoster ((assign_recruit cmd r pos v).2) := by
  obtain ⟨hocc, hnd⟩ := h
  unfold assign_recruit
  by_cases hend : v.status = .Ended
  · simp only [if_pos hend]
    exact ⟨hocc, hnd⟩
  simp only [if_neg hend]
  cases hgc : get_user_crew v cmd with
  | none => exact ⟨hocc, hnd⟩
  | some pr =>
    obtain ⟨t, i⟩ := pr
    by_cases hr : r ∈ v.recruits
    · simp only [if_pos hr]
      obtain ⟨c, hci, hcmd⟩ := get_user_crew_spec hgc
      obtain ⟨p1, p2, p3, p4⟩ := pool_member_parts (hocc r) hr
      unfold crew_count at p3 p4
      have hce : r ∉ v.recruits.erase r := hnd.not_mem_erase
      cases t with
      | A =>
        simp only [crews] at hci
        refine ⟨?_, hnd.erase r⟩
        intro x
        rw [occ_count_def]
        simp only [set_crews, modify_slot, crews, hci]
        have hbal := countP_write_balance hci pos r x
        by_cases hx : x = r
        · subst hx
          have hcf : slot_has_user x (some c) = false :=
            not_has_of_count_zero p3 (mem_of_idx hci)
          rw [if_neg p1, if_neg p2, if_neg hce, p4]
          rw [hcf] at hbal
          have hb1 := ite_le_one (slot_has_user x (some (set_position c pos x)) = true)
          simp only [Bool.false_eq_true, if_false] at hbal
          omega
        · have hb := hocc x
          rw [occ_count_def] at hb
          have himp : (if slot_has_user x (some (set_position c pos r)) then 1 else 0) ≤
              (if slot_has_user x (some c) then 1 else 0) := by
            by_cases hsx : slot_has_user x (some (set_position c pos r)) = true
            · rcases set_position_member_cases hsx with h1 | h1
              · simp [hsx, h1]
              · exact absurd h1 hx
            · simp only [Bool.not_eq_true] at hsx
              simp [hsx]
          have hmem : (if x ∈ v.recruits.erase r then 1 else 0) ≤
              (if x ∈ v.recruits then 1 else 0) := by
            by_cases hm : x ∈ v.recruits.erase r
            · simp [hm, List.mem_of_mem_erase hm]
            · simp [hm]
          omega
      | B =>
        simp only [crews] at hci
        refine ⟨?_, hnd.erase r⟩
        intro x
        rw [occ_count_def]
        simp only [set_crews, modify_slot, crews, hci]
        have hbal := countP_write_balance hci pos r x
        by_cases hx : x = r
        · subst hx
          have hcf : slot_has_user x (some c) = false :=
            not_has_of_count_zero p4 (mem_of_idx hci)
          rw [if_neg p1, if_neg p2, if_neg hce, p3]
          rw [hcf] at hbal
          have hb1 := ite_le_one (slot_has_user x (some (set_position c pos x)) = true)
          simp only [Bool.false_eq_true, if_false] at hbal
          omega
        · have hb := hocc x
          rw [occ_count_def] at hb
          have himp : (if slot_has_user x (some (set_position c pos r)) then 1 else 0) ≤
              (if slot_has_user x (some c) then 1 else 0) := by
            by_cases hsx : slot_has_user x (some (set_position c pos r)) = true
            · rcases set_position_member_cases hsx with h1 | h1
              · simp [hsx, h1]
              · exact absurd h1 hx
            · simp only [Bool.not_eq_true] at hsx
              simp [hsx]
          have hmem : (if x ∈ v.recruits.erase r then 1 else 0) ≤
              (if x ∈ v.recruits then 1 else 0) := by
            by_cases hm : x ∈ v.recruits.erase r
            · simp [hm, List.mem_of_mem_erase hm]
            · simp [hm]
          omega
    · simp only [if_neg hr]
      exact ⟨hocc, hnd⟩

/-- Operation `EditCrewButton`/`UpdateGunner/DriverSelect` (position editing) preserves
the uniqueness invariant. -/
theorem edit_position_preserves (cmd : UserId) (pos : CrewPosition)
    (newId : Option UserId) (v : Roster) (h : UniqueRoster v) :
    UniqueRoster ((edit_position cmd pos newId v).2) := by
  obtain ⟨hocc, hnd⟩ := h
  unfold edit_position
  by_cases hend : v.status = .Ended
  · simp only [if_pos hend]
    exact ⟨hocc, hnd⟩
  simp only [if_neg hend]
  cases hgc : get_user_crew v cmd with
  | none => exact ⟨hocc, hnd⟩
  | some pr =>
    obtain ⟨t, i⟩ := pr
    obtain ⟨c, hci, hcmd⟩ := get_user_crew_spec hgc
    cases newId with
    | some u =>
      by_cases hreg : is_user_registered v u = true
      · simp only [hreg, if_pos]
        exact ⟨hocc, hnd⟩
      simp only [Bool.not_eq_true] at hreg
      simp only [hreg, Bool.false_eq_true, if_false]
      obtain ⟨q1, q2, q3, q4, q5⟩ := occ_zero_parts (occ_count_eq_zero hreg)
      unfold crew_count at q3 q4
      cases t with
      | A =>
        simp only [crews] at hci
        refine ⟨?_, hnd⟩
        intro x
        rw [occ_count_def]
        simp only [set_crews, modify_slot, crews, hci]
        have hbal := countP_write_balance hci pos u x
        by_cases hx : x = u
        · subst hx
          have hcf : slot_has_user x (some c) = false :=
            not_has_of_count_zero q3 (mem_of_idx hci)
          rw [if_neg q1, if_neg q2, if_neg q5, q4]
          rw [hcf] at hbal
          have hb1 := ite_le_one (slot_has_user x (some (set_position c pos x)) = true)
          simp only [Bool.false_eq_true, if_false] at hbal
          omega
        · have hb := hocc x
          rw [occ_count_def] at hb
          have himp : (if slot_has_user x (some (set_position c pos u)) then 1 else 0) ≤
              (if slot_has_user x (some c) then 1 else 0) := by
            by_cases hsx : slot_has_user x (some (set_position c pos u)) = true
            · rcases set_position_member_cases hsx with h1 | h1
              · simp [hsx, h1]
              · exact absurd h1 hx
            · simp only [Bool.not_eq_true] at hsx
              simp [hsx]
          omega
      | B =>
        simp only [crews] at hci
        refine ⟨?_, hnd⟩
        intro x
        rw [occ_count_def]
        simp only [set_crews, modify_slot, crews, hci]
        have hbal := countP_write_balance hci pos u x
        by_cases hx : x = u
        · subst hx
          have hcf : slot_has_user x (some c) = false :=
            not_has_of_count_zero q4 (mem_of_idx hci)
          rw [if_neg q1, if_neg q2, if_neg q5, q3]
          rw [hcf] at hbal
          have hb1 := ite_le_one (slot_has_user x (some (set_position c pos x)) = true)
          simp only [Bool.false_eq_true, if_false] at hbal
          omega
        · have hb := hocc x
          rw [occ_count_def] at hb
          have himp : (if slot_has_user x (some (set_position c pos u)) then 1 else 0) ≤
              (if slot_has_user x (some c) then 1 else 0) := by
            by_cases hsx : slot_has_user x (some (set_position c pos u)) = true
            · rcases set_position_member_cases hsx with h1 | h1
              · simp [hsx, h1]
              · exact absurd h1 hx
            · simp only [Bool.not_eq_true] at hsx
              simp [hsx]
          omega
    | none =>
      have hcsm : slot_has_user c.commander (some c) = true := by
        simp [slot_has_user]
      have himp : ∀ x : UserId,
          (if slot_has_user x (some (set_position c pos c.commander)) then 1 else 0) ≤
            (if slot_has_user x (some c) then 1 else 0) := by
        intro x
        by_cases hsx : slot_has_user x (some (set_position c pos c.commander)) = true
        · rcases set_position_member_cases hsx with h1 | h1
          · simp [hsx, h1]
          · subst h1
            simp [hsx, hcsm]
        · simp only [Bool.not_eq_true] at hsx
          simp [hsx]
      cases t with
      | A =>
        simp only [crews] at hci
        refine ⟨?_, hnd⟩
        intro x
        rw [occ_count_def]
        simp only [set_crews, modify_slot, crews, hci]
        have hbal := countP_write_balance hci pos c.commander x
        have hb := hocc x
        rw [occ_count_def] at hb
        have hi := himp x
        omega
      | B =>
        simp only [crews] at hci
        refine ⟨?_, hnd⟩
        intro x
        rw [occ_count_def]
        simp only [set_crews, modify_slot, crews, hci]
        have hbal := countP_write_balance hci pos c.commander x
        have hb := hocc x
        rw [occ_count_def] at hb
        have hi := himp x
        omega

/-- Clearing the slots containing `u` never increases any slot count. -/
theorem clear_count_le (u x : UserId) (l : List (Option CrewSlot)) :
    (clear_user_slots u l).countP (slot_has_user x) ≤ l.countP (slot_has_user x) := by
  unfold clear_user_slots
  rw [List.countP_map]
  apply List.countP_mono_left
  intro s hs hp
  simp only [Function.comp] at hp
  by_cases hu : slot_has_user u s = true
  · rw [if_pos hu] at hp
    simp [slot_has_user] at hp
  · rw [if_neg hu] at hp
    exact hp

/-- The commander phase of leaving never increases any occupancy count. -/
theorem occ_commander_step_le (u x : UserId) (v : Roster) :
    occ_count (leave_commander_step u v) x ≤ occ_count v x := by
  unfold leave_commander_step
  split
  · rw [occ_count_def, occ_count_def]
    simp only
    have h1 := ite_le_one (v.commanderA = some x)
    simp
  · split
    · rw [occ_count_def, occ_count_def]
      simp only
      have h1 := ite_le_one (v.commanderB = some x)
      simp
    · exact Nat.le_refl _

/-- The crew phase of leaving never increases any occupancy count. -/
theorem occ_crew_step_le (u x : UserId) (v : Roster) :
    occ_count (leave_crew_step u v) x ≤ occ_count v x := by
  unfold leave_crew_step
  rw [occ_count_def, occ_count_def]
  simp only
  have hA := clear_count_le u x v.crewsA
  have hB := clear_count_le u x v.crewsB
  omega

/-- The pool phase of leaving never increases any occupancy count. -/
theorem occ_pool_step_le (u x : UserId) (v : Roster) :
    occ_count (leave_pool_step u v) x ≤ occ_count v x := by
  unfold leave_pool_step
  split
  · rw [occ_count_def, occ_count_def]
    simp only
    have hm : (if x ∈ v.recruits.erase u then (1 : Nat) else 0) ≤
        if x ∈ v.recruits then 1 else 0 := by
      by_cases h : x ∈ v.recruits.erase u
      · simp [h, List.mem_of_mem_erase h]
      · simp [h]
    omega
  · exact Nat.le_refl _

/-- The commander phase leaves the recruit pool untouched. -/
theorem commander_step_recruits (u : UserId) (v : Roster) :
    (leave_commander_step u v).recruits = v.recruits := by
  unfold leave_commander_step
  split
  · rfl
  · split <;> rfl

/-- The crew phase leaves the recruit pool untouched. -/
theorem crew_step_recruits (u : UserId) (v : Roster) :
    (leave_crew_step u v).recruits = v.recruits := rfl

/-- The pool phase keeps the recruit pool duplicate-free. -/
theorem pool_step_nodup (u : UserId) (v : Roster) (h : v.recruits.Nodup) :
    (leave_pool_step u v).recruits.Nodup := by
  unfold leave_pool_step
  split
  · exact h.erase u
  · exact h

/-- Operation `LeaveEventButton.callback` preserves the uniqueness invariant. -/
theorem leave_preserves (u : UserId) (v : Roster) (h : UniqueRoster v) :
    UniqueRoster ((leave u v).2) := by
  obtain ⟨hocc, hnd⟩ := h
  unfold leave
  by_cases hend : v.status = .Ended
  · simp only [if_pos hend]
    exact ⟨hocc, hnd⟩
  simp only [if_neg hend]
  have hu : UniqueRoster (leave_pool_step u (leave_crew_step u (leave_commander_step u v))) := by
    constructor
    · intro x
      calc occ_count (leave_pool_step u (leave_crew_step u (leave_commander_step u v))) x ≤
            occ_count (leave_crew_step u (leave_commander_step u v)) x :=
              occ_pool_step_le u x _
        _ ≤ occ_count (leave_commander_step u v) x := occ_crew_step_le u x _
        _ ≤ occ_count v x := occ_commander_step_le u x v
        _ ≤ 1 := hocc x
    · apply pool_step_nodup
      rw [crew_step_recruits, commander_step_recruits]
      exact hnd
  split
  · exact hu
  · exact hu

/-- Every single engine operation preserves the uniqueness invariant. -/
theorem apply_op_preserves (op : Op) (v : Roster) (h : UniqueRoster v) :
    UniqueRoster ((apply_op op v).2) := by
  cases op with
  | become_commander u t => exact become_commander_preserves u t v h
  | create_crew c g d name t => exact create_crew_preserves c g d name t v h
  | join_with_profile p t => exact join_with_profile_preserves p t v h
  | add_recruit u => exact add_recruit_preserves u v h
  | assign_recruit cmd r pos => exact assign_recruit_preserves cmd r pos v h
  | edit_position cmd pos newId => exact edit_position_preserves cmd pos newId v h
  | leave u => exact leave_preserves u v h

/-- The freshly created roster satisfies the uniqueness invariant. -/
theorem unique_init (n : Nat) : UniqueRoster (init_state n) := by
  constructor
  · intro u
    have hz : (List.replicate n (none : Option CrewSlot)).countP (slot_has_user u) = 0 := by
      rw [List.countP_eq_zero]
      intro s hs
      rw [List.eq_of_mem_replicate hs]
      simp [slot_has_user]
    rw [occ_count_def]
    simp [init_state, hz]
  · simp [init_state]

/-- C1: Uniqueness invariant — for every sequence of accepted mutating
operations (become commander, create crew, join with profile, add recruit,
assign recruit, edit position, leave) on a roster satisfying the invariant,
every state produced by the sequence again satisfies it: each identity
occupies at most one of commander A, commander B, a crew slot of either
faction, or the recruit pool.  Every intermediate state is `run_ops` of a
prefix, so the statement covers all intermediate states; rejected operations
leave the state unchanged by construction. -/
theorem C1_uniqueness_invariant (ops : List Op) (v : Roster)
    (h : UniqueRoster v) : UniqueRoster (run_ops ops v) := by
  induction ops generalizing v with
  | nil => exact h
  | cons op rest ih => exact ih ((apply_op op v).2) (apply_op_preserves op v h)

/-- Witness for C1: a concrete operation sequence from the fresh roster. -/
theorem C1_uniqueness_invariant_witness :
    UniqueRoster (run_ops
      [Op.become_commander 1 .A, Op.add_recruit 2,
        Op.create_crew 3 4 5 "Vanguard" .A, Op.assign_recruit 3 2 .gunner,
        Op.leave 1]
      (init_state 3)) :=
  C1_uniqueness_invariant _ _ (unique_init 3)

/-- C2: Deterministic first-fit allocation — a successful allocation (used by
both direct crew creation and profile-linked joins) writes into the
lowest-indexed empty slot, and after releasing index `k` the next allocation
returns an index at most `k`. -/
theorem C2_deterministic_first_fit (l : List (Option CrewSlot)) (c : CrewSlot) :
    (∀ i l', alloc_slot l c = some (i, l') →
        l[i]? = some none ∧ (∀ j, j < i → l[j]? ≠ some none) ∧
          l' = l.set i (some c)) ∧
    (∀ k, k < l.length →
        ∃ i l', alloc_slot (l.set k none) c = some (i, l') ∧ i ≤ k) := by
  constructor
  · intro i l' hal
    obtain ⟨hfe, rfl⟩ := alloc_slot_eq hal
    obtain ⟨h1, h2⟩ := first_empty_spec l i hfe
    exact ⟨h1, h2, rfl⟩
  · intro k hk
    have hget : (l.set k none)[k]? = some none := List.getElem?_set_eq_of_lt none hk
    obtain ⟨i, hi, hik⟩ := first_empty_le (l.set k none) k hget
    exact ⟨i, (l.set k none).set i (some c), by simp [alloc_slot, hi], hik⟩

/-- Witness for C2: allocation on a list whose first slot is taken lands in
index 1, and after releasing index 0 the allocator returns an index at most
0. -/
theorem C2_deterministic_first_fit_witness :
    ([some slotX, none][1]? = some none ∧
        (∀ j, j < 1 → [some slotX, none][j]? ≠ some none) ∧
        [some slotX, none].set 1 (some slotY) = [some slotX, none].set 1 (some slotY)) ∧
      (∃ i l', alloc_slot ([some slotX, none].set 0 none) slotY = some (i, l') ∧ i ≤ 0) := by
  constructor
  · exact (C2_deterministic_first_fit [some slotX, none] slotY).1 1
      ([some slotX, none].set 1 (some slotY)) rfl
  · exact (C2_deterministic_first_fit [some slotX, none] slotY).2 0 (by decide)

/-- C4: Freeze on Ended — when the end-event operation completes successfully,
the roster status is Ended, and every subsequent mutating operation (commander
signup, crew creation, profile join, add recruit, assign recruit, edit
position, leave) fails with `event_ended` and returns the roster unchanged.
The rejection models the signup components being disabled by
`EndEventButton.callback`, so no mutating callback can be delivered. -/
theorem C4_freeze_on_ended (v : Roster) (admin : Bool)
    (hok : (end_event admin v).1 = .ok) :
    (end_event admin v).2.status = .Ended ∧
      ∀ op : Op, apply_op op (end_event admin v).2 =
        (.event_ended, (end_event admin v).2) := by
  unfold end_event at hok ⊢
  by_cases hend : v.status = .Ended
  · rw [if_pos hend] at hok
    simp at hok
  rw [if_neg hend] at hok ⊢
  cases admin with
  | false => simp at hok
  | true =>
    simp only [Bool.not_true, Bool.false_eq_true, if_false]
    refine ⟨by simp, ?_⟩
    intro op
    cases op <;>
      simp [apply_op, become_commander, create_crew, join_with_profile,
        add_recruit, assign_recruit, edit_position, leave]

/-- Witness for C4: ending the fresh roster freezes it; an `add_recruit`
afterwards is rejected with `event_ended` and changes nothing. -/
theorem C4_freeze_on_ended_witness :
    (end_event true (init_state 3)).2.status = .Ended ∧
      apply_op (.add_recruit 1) (end_event true (init_state 3)).2 =
        (.event_ended, (end_event true (init_state 3)).2) := by
  have h := C4_freeze_on_ended (init_state 3) true rfl
  exact ⟨h.1, h.2 (.add_recruit 1)⟩

/-- Clearing is the identity on a list none of whose slots contains `u`. -/
theorem clear_user_slots_id {u : UserId} :
    ∀ {l : List (Option CrewSlot)}, l.any (slot_has_user u) = false →
      clear_user_slots u l = l := by
  intro l
  induction l with
  | nil => intro _; rfl
  | cons hd tl ih =>
    intro h
    rw [List.any_cons, Bool.or_eq_false_iff] at h
    unfold clear_user_slots at ih ⊢
    simp only [List.map_cons]
    rw [if_neg (by simp [h.1]), ih h.2]

/-- C9: Idempotent leave — leaving while occupying no commander seat, no crew
slot position and no recruit-pool entry reports `not_registered` and leaves
the roster unchanged. -/
theorem C9_idempotent_leave (v : Roster) (u : UserId) (hopen : v.status = .Open)
    (h : is_user_registered v u = false) : leave u v = (.not_registered, v) := by
  have hend : ¬ v.status = .Ended := by rw [hopen]; intro hc; cases hc
  simp only [is_user_registered, Bool.or_eq_false_iff, decide_eq_false_iff_not] at h
  obtain ⟨⟨⟨⟨h1, h2⟩, h3⟩, h4⟩, h5⟩ := h
  have e1 : leave_commander_step u v = v := by
    unfold leave_commander_step
    rw [if_neg h1, if_neg h2]
  have hclA : clear_user_slots u v.crewsA = v.crewsA := clear_user_slots_id h3
  have hclB : clear_user_slots u v.crewsB = v.crewsB := clear_user_slots_id h4
  have e2 : leave_crew_step u v = v := by
    unfold leave_crew_step
    rw [hclA, hclB]
  have e3 : leave_pool_step u v = v := by
    unfold leave_pool_step
    rw [if_neg h5]
  have hcond : ¬ (v.commanderA = some u ∨ v.commanderB = some u ∨
      v.crewsA.any (slot_has_user u) = true ∨ v.crewsB.any (slot_has_user u) = true ∨
      u ∈ v.recruits) := by
    push_neg
    exact ⟨h1, h2, by simp [h3], by simp [h4], h5⟩
  unfold leave
  rw [if_neg hend, if_neg hcond, e1, e2, e3]

/-- Witness for C9: an unregistered identity leaving the fresh roster. -/
theorem C9_idempotent_leave_witness :
    leave 5 (init_state 2) = (.not_registered, init_state 2) :=
  C9_idempotent_leave (init_state 2) 5 rfl rfl

/-- The commander phase does not touch the crew slot lists. -/
theorem commander_step_crews (u : UserId) (v : Roster) (t : Team) :
    crews (leave_commander_step u v) t = crews v t := by
  unfold leave_commander_step
  cases t with
  | A =>
    split
    · rfl
    · split <;> rfl
  | B =>
    split
    · rfl
    · split <;> rfl

/-- The crew phase clears the slots containing the leaver, in each faction. -/
theorem crew_step_crews (u : UserId) (v : Roster) (t : Team) :
    crews (leave_crew_step u v) t = clear_user_slots u (crews v t) := by
  cases t <;> rfl

/-- The pool phase does not touch the crew slot lists. -/
theorem pool_step_crews (u : UserId) (v : Roster) (t : Team) :
    crews (leave_pool_step u v) t = crews v t := by
  unfold leave_pool_step
  cases t with
  | A => split <;> rfl
  | B => split <;> rfl

/-- C10 (implicit): whole-slot removal on leave — when `u` occupies the gunner
or driver position (but not the commander position) of the occupied slot `i`,
leaving succeeds and resets that entire slot to empty, removing its commander
and the remaining member along with `u`. -/
theorem C10_leave_clears_whole_slot (v : Roster) (u : UserId) (t : Team)
    (i : Nat) (c : CrewSlot) (hopen : v.status = .Open)
    (hslot : (crews v t)[i]? = some (some c))
    (hpos : u = c.gunner ∨ u = c.driver) (_hncmd : u ≠ c.commander) :
    (leave u v).1 = .ok ∧ (crews (leave u v).2 t)[i]? = some none := by
  have hend : ¬ v.status = .Ended := by rw [hopen]; intro hc; cases hc
  have hshu : slot_has_user u (some c) = true := by
    rcases hpos with h1 | h1 <;> simp [slot_has_user, h1]
  have hany : (crews v t).any (slot_has_user u) = true := by
    rw [List.any_eq_true]
    exact ⟨some c, mem_of_idx hslot, hshu⟩
  have hcond : v.commanderA = some u ∨ v.commanderB = some u ∨
      v.crewsA.any (slot_has_user u) = true ∨ v.crewsB.any (slot_has_user u) = true ∨
      u ∈ v.recruits := by
    cases t with
    | A => exact Or.inr (Or.inr (Or.inl (by simpa [crews] using hany)))
    | B => exact Or.inr (Or.inr (Or.inr (Or.inl (by simpa [crews] using hany))))
  unfold leave
  rw [if_neg hend, if_pos hcond]
  refine ⟨rfl, ?_⟩
  rw [pool_step_crews, crew_step_crews, commander_step_crews]
  unfold clear_user_slots
  rw [List.getElem?_map, hslot]
  simp [hshu]

/-- Witness for C10: gunner 42 leaving wipes the whole crew at faction A slot
1 of `wv5`. -/
theorem C10_leave_clears_whole_slot_witness :
    (leave 42 wv5).1 = .ok ∧ (crews (leave 42 wv5).2 .A)[1]? = some none :=
  C10_leave_clears_whole_slot wv5 42 .A 1 ⟨41, "Claw", 42, 43, none⟩ rfl rfl
    (Or.inl rfl) (by decide)

/-- C3: Profile-join atomicity — when any of the snapshot's three derived
member identities (commander; gunner and driver defaulting to the commander)
is already registered, the join fails with `member_already_registered` naming
that (registered) member and returns the roster completely unchanged; when
none is registered, the conflict scan is empty and, the faction having an
empty slot, the join writes exactly one crew slot — the lowest empty one —
carrying the snapshot's profile id, touching nothing else. -/
theorem C3_profile_join_atomicity (v : Roster) (p : CrewProfile) (t : Team)
    (hopen : v.status = .Open) :
    (∀ m, first_conflict v p = some m →
        is_user_registered v m = true ∧
          join_with_profile p t v = (.member_already_registered m, v)) ∧
    ((is_user_registered v p.commander_id = false ∧
        is_user_registered v (p.gunner_id.getD p.commander_id) = false ∧
        is_user_registered v (p.driver_id.getD p.commander_id) = false) →
      first_conflict v p = none) ∧
    (first_conflict v p = none →
      ∀ i, first_empty (crews v t) = some i →
        (crews v t)[i]? = some none ∧
          join_with_profile p t v = (.ok, set_crews v t ((crews v t).set i
            (some ⟨p.commander_id, p.crew_name, p.gunner_id.getD p.commander_id,
              p.driver_id.getD p.commander_id, some p.id⟩)))) := by
  have hend : ¬ v.status = .Ended := by rw [hopen]; intro hc; cases hc
  refine ⟨?_, ?_, ?_⟩
  · intro m hm
    have hreg : is_user_registered v m = true := by
      unfold first_conflict at hm
      split_ifs at hm with h1 h2 h3
      · cases hm; exact h1
      · cases hm; exact h2
      · cases hm; exact h3
    refine ⟨hreg, ?_⟩
    unfold join_with_profile
    rw [if_neg hend, hm]
  · intro ⟨h1, h2, h3⟩
    unfold first_conflict
    rw [if_neg (by simp [h1]), if_neg (by simp [h2]), if_neg (by simp [h3])]
  · intro hcf i hfe
    have hi := (first_empty_spec (crews v t) i hfe).1
    refine ⟨hi, ?_⟩
    unfold join_with_profile
    rw [if_neg hend, hcf]
    simp [alloc_slot, hfe]

/-- Witness for C3: joining `wv1` with `wp1` (whose members all default to the
already-recruited identity 7) is rejected naming 7 and changes nothing, while
joining the fresh roster with the conflict-free `wp2` fills faction A slot
0. -/
theorem C3_profile_join_atomicity_witness :
    (is_user_registered wv1 7 = true ∧
        join_with_profile wp1 .A wv1 = (.member_already_registered 7, wv1)) ∧
      ((crews (init_state 3) .A)[0]? = some none ∧
        join_with_profile wp2 .A (init_state 3) =
          (.ok, set_crews (init_state 3) .A ((crews (init_state 3) .A).set 0
            (some ⟨1, "Eagle", 2, 3, some 11⟩)))) := by
  constructor
  · exact (C3_profile_join_atomicity wv1 wp1 .A rfl).1 7 rfl
  · exact (C3_profile_join_atomicity (init_state 3) wp2 .A rfl).2.2 rfl 0 rfl

/-- C8: TeamFull — with every slot of the target faction occupied, a direct
crew creation whose three members pass the registration checks, or a
profile-linked join whose conflict scan is empty, fails with `team_full` and
returns the roster unchanged. -/
theorem C8_team_full (v : Roster) (t : Team) (hopen : v.status = .Open)
    (hfull : ∀ s ∈ crews v t, s ≠ none) :
    (∀ c g d name, is_user_registered v c = false →
        is_user_registered v g = false → is_user_registered v d = false →
        create_crew c g d name t v = (.team_full, v)) ∧
    (∀ p, first_conflict v p = none →
        join_with_profile p t v = (.team_full, v)) := by
  have hend : ¬ v.status = .Ended := by rw [hopen]; intro hc; cases hc
  have hfe : first_empty (crews v t) = none := (first_empty_eq_none_iff _).mpr hfull
  constructor
  · intro c g d name hc hg hd
    unfold create_crew
    rw [if_neg hend]
    rw [hc, hg, hd]
    simp [alloc_slot, hfe]
  · intro p hcf
    unfold join_with_profile
    rw [if_neg hend, hcf]
    simp [alloc_slot, hfe]

/-- Witness for C8: both allocation paths fail with `team_full` on the full
faction A of `wv4`. -/
theorem C8_team_full_witness :
    create_crew 51 52 53 "Late" .A wv4 = (.team_full, wv4) ∧
      join_with_profile wp4 .A wv4 = (.team_full, wv4) := by
  have h := C8_team_full wv4 .A rfl (by decide)
  exact ⟨h.1 51 52 53 "Late" rfl rfl rfl, h.2 wp4 rfl⟩

/-- C6: Recruit assignment — invoked by a crew commander, assigning an
identity that is not currently in the recruit pool fails with
`recruit_not_found` and changes nothing; assigning a pool member removes it
from the pool and writes it into the chosen position of the commander's crew
slot, after which it is no longer in the pool. -/
theorem C6_recruit_assignment (v : Roster) (cmd r : UserId) (pos : CrewPosition)
    (t : Team) (i : Nat) (hopen : v.status = .Open) (hnd : v.recruits.Nodup)
    (hc : get_user_crew v cmd = some (t, i)) :
    (r ∉ v.recruits → assign_recruit cmd r pos v = (.recruit_not_found, v)) ∧
    (r ∈ v.recruits → ∃ c, (crews v t)[i]? = some (some c) ∧
        assign_recruit cmd r pos v =
          (.ok, { set_crews v t ((crews v t).set i (some (set_position c pos r))) with
                  recruits := v.recruits.erase r }) ∧
        r ∉ ((assign_recruit cmd r pos v).2).recruits) := by
  have hend : ¬ v.status = .Ended := by rw [hopen]; intro hcc; cases hcc
  constructor
  · intro hr
    unfold assign_recruit
    rw [if_neg hend, hc]
    simp [hr]
  · intro hr
    obtain ⟨c, hci, hcmd⟩ := get_user_crew_spec hc
    refine ⟨c, hci, ?_, ?_⟩
    · unfold assign_recruit
      rw [if_neg hend, hc]
      simp only [hr, if_pos]
      rw [modify_slot, hci]
    · unfold assign_recruit
      rw [if_neg hend, hc]
      simp only [hr, if_pos]
      exact hnd.not_mem_erase

/-- Witness for C6: on `wv2`, commander 3 assigning the absent identity 8
fails with `recruit_not_found`, while assigning recruit 9 as gunner fills the
crew and empties the pool. -/
theorem C6_recruit_assignment_witness :
    (assign_recruit 3 8 .gunner wv2 = (.recruit_not_found, wv2)) ∧
      (∃ c, (crews wv2 .A)[0]? = some (some c) ∧
        assign_recruit 3 9 .gunner wv2 =
          (.ok, { set_crews wv2 .A ((crews wv2 .A).set 0 (some (set_position c .gunner 9))) with
                  recruits := wv2.recruits.erase 9 }) ∧
        9 ∉ ((assign_recruit 3 9 .gunner wv2).2).recruits) := by
  constructor
  · exact (C6_recruit_assignment wv2 3 8 .gunner .A 0 rfl (by decide) rfl).1 (by decide)
  · exact (C6_recruit_assignment wv2 3 9 .gunner .A 0 rfl (by decide) rfl).2 (by decide)

/-- C7 counterexample: on `wv3`, whose only crew is self-crewed by commander
1, editing the gunner position with identity 1 — exactly the slot's own
commander, which the claim says must succeed — is rejected with
`already_registered` (the commander is registered, and the code checks
`is_user_registered` on every explicitly selected identity), and the roster
is unchanged. -/
theorem C7_counterexample :
    wv3.crewsA = [some ⟨1, "Solo", 1, 1, none⟩] ∧
      edit_position 1 .gunner (some 1) wv3 = (.already_registered, wv3) := by
  exact ⟨rfl, rfl⟩

/-- C7 amended: editing the gunner or driver position of one's crew with an
explicitly selected identity succeeds exactly when that identity is currently
unregistered — selecting any registered identity, the slot's own commander
included, fails with `already_registered` and changes nothing — while an
empty selection (clearing) resets the position to the slot's commander
identity. -/
theorem C7_edit_position_amended (v : Roster) (cmd : UserId) (pos : CrewPosition)
    (t : Team) (i : Nat) (hopen : v.status = .Open)
    (hc : get_user_crew v cmd = some (t, i)) :
    (∀ u, is_user_registered v u = true →
        edit_position cmd pos (some u) v = (.already_registered, v)) ∧
    (∀ u, is_user_registered v u = false →
        ∃ c, (crews v t)[i]? = some (some c) ∧
          edit_position cmd pos (some u) v =
            (.ok, set_crews v t ((crews v t).set i (some (set_position c pos u))))) ∧
    (∃ c, (crews v t)[i]? = some (some c) ∧
        edit_position cmd pos none v =
          (.ok, set_crews v t ((crews v t).set i
            (some (set_position c pos c.commander))))) := by
  have hend : ¬ v.status = .Ended := by rw [hopen]; intro hcc; cases hcc
  obtain ⟨c, hci, hcmd⟩ := get_user_crew_spec hc
  refine ⟨?_, ?_, ?_⟩
  · intro u hreg
    unfold edit_position
    rw [if_neg hend, hc]
    simp [hreg]
  · intro u hreg
    refine ⟨c, hci, ?_⟩
    unfold edit_position
    rw [if_neg hend, hc]
    simp only [hreg, Bool.false_eq_true, if_false]
    rw [modify_slot, hci]
  · refine ⟨c, hci, ?_⟩
    unfold edit_position
    rw [if_neg hend, hc]
    simp only [modify_slot, hci]

/-- Witness for the amended C7 on `wv3`: selecting the registered commander 1
is rejected; selecting the fresh identity 2 installs it as gunner; clearing
restores the commander as gunner. -/
theorem C7_edit_position_amended_witness :
    (edit_position 1 .gunner (some 1) wv3 = (.already_registered, wv3)) ∧
      (∃ c, (crews wv3 .A)[0]? = some (some c) ∧
        edit_position 1 .gunner (some 2) wv3 =
          (.ok, set_crews wv3 .A ((crews wv3 .A).set 0 (some (set_position c .gunner 2))))) ∧
      (∃ c, (crews wv3 .A)[0]? = some (some c) ∧
        edit_position 1 .gunner none wv3 =
          (.ok, set_crews wv3 .A ((crews wv3 .A).set 0
            (some (set_position c .gunner c.commander))))) := by
  have h := C7_edit_position_amended wv3 1 .gunner .A 0 rfl rfl
  exact ⟨h.1 1 rfl, h.2.1 2 rfl, h.2.2⟩

/-- C5: Finalize participant list — the list built by the end-event operation
contains each present faction commander with role commander and no crew name;
each occupied crew slot contributes its commander carrying the crew name, its
gunner with role gunner unless the gunner is the commander, and its driver
with role driver unless the driver is the commander, so a fully self-crewed
slot contributes exactly one entry, under the commander role; each recruit
appears with role recruit and no faction.  On the concrete scenario
`demo_roster` (2 commanders, one crew of three distinct members, 2 recruits)
the list has length 7 and exactly 5 entries carry a faction. -/
theorem C5_finalize_participants :
    (∀ (v : Roster) (u : UserId), v.commanderA = some u →
        (⟨u, some .A, .commander, none⟩ : Participant) ∈ participants v) ∧
    (∀ (v : Roster) (u : UserId), v.commanderB = some u →
        (⟨u, some .B, .commander, none⟩ : Participant) ∈ participants v) ∧
    (∀ (t : Team) (c : CrewSlot),
        (c.gunner = c.commander → c.driver = c.commander →
          crew_participants t c =
            [⟨c.commander, some t, .commander, some c.crew_name⟩]) ∧
        ((⟨c.commander, some t, .commander, some c.crew_name⟩ : Participant) ∈
          crew_participants t c) ∧
        (c.gunner ≠ c.commander →
          (⟨c.gunner, some t, .gunner, some c.crew_name⟩ : Participant) ∈
            crew_participants t c) ∧
        (c.driver ≠ c.commander →
          (⟨c.driver, some t, .driver, some c.crew_name⟩ : Participant) ∈
            crew_participants t c)) ∧
    (∀ (v : Roster) (t : Team) (c : CrewSlot), some c ∈ crews v t →
        ∀ q ∈ crew_participants t c, q ∈ participants v) ∧
    (∀ (v : Roster), ∀ u ∈ v.recruits,
        (⟨u, none, .recruit, none⟩ : Participant) ∈ participants v) ∧
    (participants demo_roster).length = 7 ∧
    (participants demo_roster).countP (fun q => q.team.isSome) = 5 := by
  refine ⟨?_, ?_, ?_, ?_, ?_, rfl, rfl⟩
  · intro v u h
    unfold participants
    rw [h]
    simp [List.mem_append]
  · intro v u h
    unfold participants
    rw [h]
    simp [List.mem_append]
  · intro t c
    refine ⟨?_, ?_, ?_, ?_⟩
    · intro hg hd
      simp [crew_participants, hg, hd]
    · simp [crew_participants]
    · intro hg
      simp [crew_participants, hg]
    · intro hd
      simp [crew_participants, hd]
  · intro v t c hc q hq
    have hqt : q ∈ team_participants t (crews v t) := by
      unfold team_participants
      rw [List.mem_flatten]
      refine ⟨crew_participants t c, ?_, hq⟩
      rw [List.mem_map]
      exact ⟨some c, hc, rfl⟩
    unfold participants
    cases t with
    | A =>
      simp only [crews] at hqt
      exact List.mem_append_left _ (List.mem_append_left _ (List.mem_append_right _ hqt))
    | B =>
      simp only [crews] at hqt
      exact List.mem_append_left _ (List.mem_append_right _ hqt)
  · intro v u hu
    have hm : (⟨u, none, .recruit, none⟩ : Participant) ∈
        v.recruits.map (fun w => (⟨w, none, .recruit, none⟩ : Participant)) :=
      List.mem_map.mpr ⟨u, hu, rfl⟩
    exact List.mem_append_right _ hm

/-- Witness for C5: the non-self-crewed gunner 4 of `demo_crew` appears as a
gunner entry, and the whole crew's entries land in the participant list of
`demo_roster`. -/
theorem C5_finalize_participants_witness :
    ((⟨4, some .A, .gunner, some "Alpha"⟩ : Participant) ∈
        crew_participants .A demo_crew) ∧
      (⟨6, none, .recruit, none⟩ : Participant) ∈ participants demo_roster ∧
      (participants demo_roster).length = 7 := by
  have h := C5_finalize_participants
  refine ⟨?_, ?_, h.2.2.2.2.2.1⟩
  · exact (h.2.2.1 .A demo_crew).2.2.1 (by decide)
  · exact h.2.2.2.2.1 demo_roster 6 (by decide)

end TankBrawl
